import Mathlib

/-!
Shallow embedding of `django_digest/models.py` (kobotoolbox/django-digest):
the credential-synchronization engine over the `PartialDigest` table and the
module-level staging dict `_postponed_partial_digests`.

Modelling choices:
* A Django `PartialDigest` row is a record with an auto primary key `id`,
  the owning user's pk `user`, and the `login`, `partial_digest`, `confirmed`
  columns.  The table is a list of rows; `nextId` models the auto-increment
  counter, so `objects.create` appends a row with a fresh pk.
* The module dict `_postponed_partial_digests` (keyed by the user's stored
  password hash, value the staged `(login, partial_digest, confirmed)` list)
  is an association list with dict semantics: insert replaces the entry for
  an existing key, lookup finds it, and `del` removes it.
* `calculate_partial_digest` (imported from `python_digest`) and the login
  factory returned by `get_backend('DIGEST_LOGIN_FACTORY', ...)` are external
  collaborators; they are parameters in `Env`.  A factory method that may be
  absent (`getattr(..., None)`) is an `Option`-valued function.
* Python `set(...)` construction is `List.dedup`; `set` equality between the
  enumerator output and the stored logins (`db_logins != logins`) is
  element-wise list equivalence `listSetEq`.
-/

namespace DjangoDigest

/-- A row of the `PartialDigest` table: `user` (FK pk), `login` (char field),
`partial_digest` (char field), `confirmed` (boolean, default true); `id` is the
implicit Django auto primary key. -/
structure PartialDigest where
  id : Nat
  user : Nat
  login : String
  partial_digest : String
  confirmed : Bool
deriving DecidableEq, Repr

/-- The slice of the Django `User` record this module reads: the pk and the
stored password hash `user.password`. -/
structure DUser where
  id : Nat
  password : String
deriving DecidableEq, Repr

/-- A staged `(login, partial_digest, confirmed)` tuple list, the value type of
`_postponed_partial_digests`. -/
abbrev Staged := List (String × String × Bool)

/-- The mutable state the module touches: the `PartialDigest` table (with its
auto-pk counter) and the module-level dict `_postponed_partial_digests`. -/
structure SyncState where
  db : List PartialDigest
  nextId : Nat
  postponed : List (String × Staged)
deriving DecidableEq, Repr

/-- External collaborators: the configured realm (`DIGEST_REALM` setting),
`python_digest.calculate_partial_digest`, and the two optional methods of the
configured login factory (absent method modelled as `none`, matching
`getattr(login_factory, method_name, None)`). -/
structure Env where
  realm : String
  calculate_partial_digest : String → String → String → String
  confirmed_logins_for_user : Option (DUser → List String)
  unconfirmed_logins_for_user : Option (DUser → List String)

/-- Dict lookup on the association list (first match; keys are unique in any
state reachable from dict operations). -/
def dictFind (k : String) : List (String × α) → Option α
  | [] => none
  | (k₂, v) :: rest => if k₂ = k then some v else dictFind k rest

/-- Dict assignment `d[k] = v`: replace the entry for `k` if present, else
append a new one. -/
def dictInsert (k : String) (v : α) : List (String × α) → List (String × α)
  | [] => [(k, v)]
  | (k₂, w) :: rest => if k₂ = k then (k, v) :: rest else (k₂, w) :: dictInsert k v rest

/-- Dict deletion `del d[k]`: drop the entry for `k`. -/
def dictErase (k : String) (d : List (String × α)) : List (String × α) :=
  d.filter (fun kv => kv.1 ≠ k)

/-- Embeds `_get_logins(user, method_name)`: the factory method is passed
directly (already resolved via `getattr(..., None)`); `set(method(user))` is
the deduplicated result list, and a missing method yields the empty set. -/
def _get_logins (method : Option (DUser → List String)) (user : DUser) : List String :=
  match method with
  | some m => (m user).dedup
  | none => []

/-- Embeds `_confirmed_logins(user)`. -/
def _confirmed_logins (env : Env) (user : DUser) : List String :=
  _get_logins env.confirmed_logins_for_user user

/-- Embeds `_unconfirmed_logins(user)`. -/
def _unconfirmed_logins (env : Env) (user : DUser) : List String :=
  _get_logins env.unconfirmed_logins_for_user user

/-- The `partial_digests` list built by the loop in `_prepare_partial_digests`:
for `(True, _confirmed_logins)` then `(False, _unconfirmed_logins)`, one tuple
`(login, calculate_partial_digest(login, realm, raw_password), confirmed)` per
login in the factory method's set. -/
def stagedFor (env : Env) (user : DUser) (raw_password : String) : Staged :=
  (_confirmed_logins env user).map
    (fun login => (login, env.calculate_partial_digest login env.realm raw_password, true))
  ++ (_unconfirmed_logins env user).map
    (fun login => (login, env.calculate_partial_digest login env.realm raw_password, false))

/-- Embeds `_prepare_partial_digests(user, raw_password)`: returns immediately
when `raw_password is None`; otherwise computes the staged list and stores it
in `_postponed_partial_digests[user.password]`. -/
def _prepare_partial_digests (env : Env) (user : DUser) (raw_password : Option String)
    (s : SyncState) : SyncState :=
  match raw_password with
  | none => s
  | some pw => { s with postponed := dictInsert user.password (stagedFor env user pw) s.postponed }

/-- The rows created by the loop in `_store_partial_digests`: one
`PartialDigest.objects.create(user=user, login=..., confirmed=...,
partial_digest=...)` per staged tuple, taking consecutive fresh pks. -/
def mkRows (uid : Nat) (startId : Nat) : Staged → List PartialDigest
  | [] => []
  | (login, pdg, confirmed) :: rest =>
      ⟨startId, uid, login, pdg, confirmed⟩ :: mkRows uid (startId + 1) rest

/-- Embeds `_store_partial_digests(user)`: delete all `PartialDigest` rows of
`user`, then create one row per tuple of
`_postponed_partial_digests[user.password]`.  (In the source the key is always
present at this call site — `_persist_partial_digests` checks it first; the
`getD []` default is never exercised from that caller.) -/
def _store_partial_digests (user : DUser) (s : SyncState) : SyncState :=
  let staged := (dictFind user.password s.postponed).getD []
  { db := s.db.filter (fun r => r.user ≠ user.id) ++ mkRows user.id s.nextId staged
    nextId := s.nextId + staged.length
    postponed := s.postponed }

/-- The state reached when `_store_partial_digests(user)` is interrupted after
the delete and the first `k` row inserts (e.g. insert `k` raises): the source
wraps the delete-then-create sequence in no transaction, so the effects already
performed remain. -/
def _store_partial_digests_steps (user : DUser) (s : SyncState) (k : Nat) : SyncState :=
  let staged := (dictFind user.password s.postponed).getD []
  { db := s.db.filter (fun r => r.user ≠ user.id) ++ mkRows user.id s.nextId (staged.take k)
    nextId := s.nextId + (staged.take k).length
    postponed := s.postponed }

/-- Embeds `_persist_partial_digests(user)`: if `user.password` is a key of
`_postponed_partial_digests`, run `_store_partial_digests(user)` and delete the
entry; otherwise do nothing. -/
def _persist_partial_digests (user : DUser) (s : SyncState) : SyncState :=
  match dictFind user.password s.postponed with
  | some _ =>
      let s₂ := _store_partial_digests user s
      { s₂ with postponed := dictErase user.password s₂.postponed }
  | none => s

/-- The login column of `PartialDigest.objects.filter(user=user,
confirmed=confirmed)`. -/
def dbLogins (s : SyncState) (user : DUser) (confirmed : Bool) : List String :=
  (s.db.filter (fun r => r.user == user.id && r.confirmed == confirmed)).map
    (fun r => r.login)

/-- Python set equality of two lists of logins (`db_logins != logins` compares
the two as sets). -/
def listSetEq (a b : List String) : Bool :=
  a.all (fun x => b.contains x) && b.all (fun x => a.contains x)

/-- Embeds `_after_authenticate(user, password)`: for `(True,
_confirmed_logins)` then `(False, _unconfirmed_logins)`, compare the factory's
set with the logins stored under that flag; on the first mismatch, re-prepare
and re-persist the partial digests and return. -/
def _after_authenticate (env : Env) (user : DUser) (password : Option String)
    (s : SyncState) : SyncState :=
  if listSetEq (dbLogins s user true) (_confirmed_logins env user) then
    if listSetEq (dbLogins s user false) (_unconfirmed_logins env user) then s
    else _persist_partial_digests user (_prepare_partial_digests env user password s)
  else _persist_partial_digests user (_prepare_partial_digests env user password s)

/-- Embeds `_review_partial_digests(user)`: for each `PartialDigest` row of
`user`, set `confirmed` to true if the login is in the confirmed set, to false
if it is in the unconfirmed set, and delete the row otherwise.  (Defined in the
module but invoked by none of its trigger paths.) -/
def _review_partial_digests (env : Env) (user : DUser) (s : SyncState) : SyncState :=
  let confirmed_logins := _confirmed_logins env user
  let unconfirmed_logins := _unconfirmed_logins env user
  { s with db := s.db.filterMap (fun pd =>
      if pd.user ≠ user.id then some pd
      else if confirmed_logins.contains pd.login then some { pd with confirmed := true }
      else if unconfirmed_logins.contains pd.login then some { pd with confirmed := false }
      else none) }

/-- The rows of `PartialDigest.objects.filter(user=user)`. -/
def rowsFor (s : SyncState) (user : DUser) : List PartialDigest :=
  s.db.filter (fun r => r.user == user.id)

/-- The login-factory environment of the migration scenarios: a fixed confirmed
set `C` and a fixed unconfirmed set `U` for every user. -/
def moveEnv (realm : String) (H : String → String → String → String)
    (C U : List String) : Env :=
  ⟨realm, H, some (fun _ => C), some (fun _ => U)⟩

/-- A concrete stand-in for `calculate_partial_digest` used in concrete
instances: injective in all three arguments, so distinct logins get distinct
digests. -/
def exHash (l r p : String) : String := l ++ "|" ++ r ++ "|" ++ p

/-- Concrete user for the C10 witness. -/
def exUserNoM : DUser := ⟨7, "hash7"⟩

/-- Concrete environment whose factory defines neither enumeration method. -/
def exEnvNoM : Env := ⟨"realm", exHash, none, none⟩

/-- Concrete user for the C8 witness. -/
def exUser8 : DUser := ⟨3, "h8"⟩

/-- Concrete state with an empty table and an empty staging dict. -/
def exState8 : SyncState := ⟨[], 0, []⟩

/-- Concrete environment whose factory reports login "a" both confirmed and
unconfirmed. -/
def overlapEnv : Env := ⟨"r", exHash, some (fun _ => ["a"]), some (fun _ => ["a"])⟩

/-- Concrete user for the C4 instances. -/
def exUser4 : DUser := ⟨1, "h4"⟩

/-- Concrete environment whose factory reports disjoint confirmed and
unconfirmed sets. -/
def disjointEnv : Env := ⟨"r", exHash, some (fun _ => ["alice"]), some (fun _ => ["bob"])⟩

/-- Concrete user for the C5 instances. -/
def exUser5 : DUser := ⟨1, "h5"⟩

/-- Concrete pre-existing `PartialDigest` row of user 1. -/
def exRow5 : PartialDigest := ⟨0, 1, "a", "olddigest", true⟩

/-- Concrete state with one row of user 1 and a staged entry under the user's
password hash. -/
def exState5 : SyncState := ⟨[exRow5], 1, [("h5", [("a", "newdigest", true)])]⟩

/-- Concrete user A for the C6 counterexample: shares its password-hash string
with user B. -/
def exUserA : DUser := ⟨1, "sharedhash"⟩

/-- Concrete user B for the C6 counterexample: same stored hash as user A. -/
def exUserB : DUser := ⟨2, "sharedhash"⟩

/-- Concrete environment whose factory gives user 2 the confirmed login "bob"
and any other user "alice". -/
def crossEnv : Env :=
  ⟨"r", exHash, some (fun u => if u.id == 2 then ["bob"] else ["alice"]),
    some (fun _ => [])⟩

/-- Concrete user with password hash "hashA" for the C6 witness. -/
def exUserC : DUser := ⟨1, "hashA"⟩

/-- Concrete user with password hash "hashB" for the C6 witness. -/
def exUserD : DUser := ⟨2, "hashB"⟩

/-- Concrete user for the C3 instances. -/
def exUser3 : DUser := ⟨1, "h3"⟩

/-- State after a first authentication with "alice" in the unconfirmed set,
starting from an empty table. -/
def exS3a : SyncState :=
  _after_authenticate (moveEnv "r" exHash [] ["alice"]) exUser3 (some "pw") ⟨[], 0, []⟩

/-- State after a second authentication once "alice" has moved to the
confirmed set. -/
def exS3b : SyncState :=
  _after_authenticate (moveEnv "r" exHash ["alice"] []) exUser3 (some "pw") exS3a

theorem dictFind_insert_self (k : String) (v : α) (d : List (String × α)) :
    dictFind k (dictInsert k v d) = some v := by
  induction d with
  | nil => simp [dictInsert, dictFind]
  | cons kv rest ih =>
    obtain ⟨k₂, w⟩ := kv
    by_cases h : k₂ = k
    · simp [dictInsert, h, dictFind]
    · simp [dictInsert, h, dictFind, ih]

theorem dictFind_insert_ne (k q : String) (v : α) (d : List (String × α)) (h : q ≠ k) :
    dictFind q (dictInsert k v d) = dictFind q d := by
  have h₂ : ¬(k = q) := fun e => h e.symm
  induction d with
  | nil => simp [dictInsert, dictFind, h₂]
  | cons kv rest ih =>
    obtain ⟨k₂, w⟩ := kv
    by_cases hk : k₂ = k
    · subst hk
      simp [dictInsert, dictFind, h₂]
    · simp [dictInsert, hk, dictFind, ih]

theorem dictFind_erase_self (k : String) (d : List (String × α)) :
    dictFind k (dictErase k d) = none := by
  induction d with
  | nil => rfl
  | cons kv rest ih =>
    obtain ⟨k₂, w⟩ := kv
    by_cases h : k₂ = k
    · simpa [dictErase, List.filter_cons, h] using ih
    · simpa [dictErase, List.filter_cons, h, dictFind] using ih

theorem mkRows_id_ge (uid : Nat) (pds : Staged) :
    ∀ (n : Nat) (r : PartialDigest), r ∈ mkRows uid n pds → n ≤ r.id := by
  induction pds with
  | nil => intro n r hr; simp [mkRows] at hr
  | cons t rest ih =>
    obtain ⟨login, pdg, confirmed⟩ := t
    intro n r hr
    rcases (List.mem_cons).1 hr with h | h
    · subst h; exact Nat.le_refl n
    · exact Nat.le_of_succ_le (ih (n + 1) r h)

theorem mkRows_map_login (uid : Nat) (pds : Staged) :
    ∀ n : Nat, (mkRows uid n pds).map (fun r => r.login) = pds.map (fun t => t.1) := by
  induction pds with
  | nil => intro n; rfl
  | cons t rest ih =>
    obtain ⟨login, pdg, confirmed⟩ := t
    intro n
    simp [mkRows, ih (n + 1)]

theorem mkRows_map_pair (uid : Nat) (pds : Staged) :
    ∀ n : Nat,
      (mkRows uid n pds).map (fun r => (r.login, r.confirmed))
        = pds.map (fun t => (t.1, t.2.2)) := by
  induction pds with
  | nil => intro n; rfl
  | cons t rest ih =>
    obtain ⟨login, pdg, confirmed⟩ := t
    intro n
    simp [mkRows, ih (n + 1)]

theorem mkRows_mem_of_mem (uid : Nat) (pds : Staged) (t : String × String × Bool) :
    ∀ n : Nat, t ∈ pds →
      ∃ r ∈ mkRows uid n pds,
        r.login = t.1 ∧ r.partial_digest = t.2.1 ∧ r.confirmed = t.2.2 := by
  induction pds with
  | nil => intro n ht; cases ht
  | cons u rest ih =>
    obtain ⟨login, pdg, confirmed⟩ := u
    intro n ht
    rcases List.mem_cons.1 ht with h | h
    · subst h
      exact ⟨⟨n, uid, login, pdg, confirmed⟩, List.mem_cons_self _ _, rfl, rfl, rfl⟩
    · obtain ⟨r, hr, hfields⟩ := ih (n + 1) h
      exact ⟨r, List.mem_cons_of_mem _ hr, hfields⟩

theorem filter_user_of_del (uid : Nat) (l : List PartialDigest) :
    (l.filter (fun r => r.user ≠ uid)).filter (fun r => r.user == uid) = [] := by
  induction l with
  | nil => rfl
  | cons r rest ih =>
    by_cases h : r.user = uid
    · simp [List.filter_cons, h, ih]
    · simp [List.filter_cons, h, ih]

theorem filter_user_mkRows (uid : Nat) (pds : Staged) :
    ∀ n : Nat, (mkRows uid n pds).filter (fun r => r.user == uid) = mkRows uid n pds := by
  induction pds with
  | nil => intro n; rfl
  | cons t rest ih =>
    obtain ⟨login, pdg, confirmed⟩ := t
    intro n
    simp [mkRows, List.filter_cons, ih (n + 1)]

theorem rowsFor_flush (env : Env) (user : DUser) (P : String) (s : SyncState) :
    rowsFor (_persist_partial_digests user (_prepare_partial_digests env user (some P) s)) user
      = mkRows user.id s.nextId (stagedFor env user P) := by
  have hfind : dictFind user.password
      (dictInsert user.password (stagedFor env user P) s.postponed)
      = some (stagedFor env user P) :=
    dictFind_insert_self user.password (stagedFor env user P) s.postponed
  simp [_prepare_partial_digests, _persist_partial_digests, hfind, rowsFor,
    _store_partial_digests, List.filter_append, filter_user_of_del, filter_user_mkRows]

theorem dbLogins_eq_rows_filter (s : SyncState) (user : DUser) (b : Bool) :
    dbLogins s user b
      = ((rowsFor s user).filter (fun r => r.confirmed == b)).map (fun r => r.login) := by
  simp [dbLogins, rowsFor, List.filter_filter, Bool.and_comm]

theorem mkRows_filter_flag (uid : Nat) (b : Bool) (pds : Staged) :
    ∀ n : Nat,
      ((mkRows uid n pds).filter (fun r => r.confirmed == b)).map (fun r => r.login)
        = (pds.filter (fun t => t.2.2 == b)).map (fun t => t.1) := by
  induction pds with
  | nil => intro n; rfl
  | cons t rest ih =>
    obtain ⟨login, pdg, confirmed⟩ := t
    intro n
    by_cases h : confirmed = b
    · simp [mkRows, List.filter_cons, h, ih (n + 1)]
    · simp [mkRows, List.filter_cons, h, ih (n + 1)]

theorem stagedFor_filter_true (env : Env) (user : DUser) (P : String) :
    ((stagedFor env user P).filter (fun t => t.2.2 == true)).map (fun t => t.1)
      = _confirmed_logins env user := by
  simp [stagedFor, List.filter_append, List.filter_map, Function.comp_def]

theorem stagedFor_filter_false (env : Env) (user : DUser) (P : String) :
    ((stagedFor env user P).filter (fun t => t.2.2 == false)).map (fun t => t.1)
      = _unconfirmed_logins env user := by
  simp [stagedFor, List.filter_append, List.filter_map, Function.comp_def]

theorem dbLogins_flush (env : Env) (user : DUser) (P : String) (s : SyncState) :
    dbLogins (_persist_partial_digests user (_prepare_partial_digests env user (some P) s))
        user true = _confirmed_logins env user
    ∧ dbLogins (_persist_partial_digests user (_prepare_partial_digests env user (some P) s))
        user false = _unconfirmed_logins env user := by
  constructor
  · rw [dbLogins_eq_rows_filter, rowsFor_flush, mkRows_filter_flag, stagedFor_filter_true]
  · rw [dbLogins_eq_rows_filter, rowsFor_flush, mkRows_filter_flag, stagedFor_filter_false]

theorem listSetEq_iff (a b : List String) :
    listSetEq a b = true ↔ a.toFinset = b.toFinset := by
  rw [listSetEq, Bool.and_eq_true, List.all_eq_true, List.all_eq_true]
  constructor
  · rintro ⟨h₁, h₂⟩
    apply Finset.ext
    intro x
    simp only [List.mem_toFinset]
    constructor
    · intro hx
      exact List.elem_iff.1 (h₁ x hx)
    · intro hx
      exact List.elem_iff.1 (h₂ x hx)
  · intro h
    constructor
    · intro x hx
      apply List.elem_iff.2
      have hm : x ∈ a.toFinset := List.mem_toFinset.2 hx
      rw [h] at hm
      exact List.mem_toFinset.1 hm
    · intro x hx
      apply List.elem_iff.2
      have hm : x ∈ b.toFinset := List.mem_toFinset.2 hx
      rw [← h] at hm
      exact List.mem_toFinset.1 hm

theorem listSetEq_false_of_mem_right (a b : List String) (x : String)
    (hb : x ∈ b) (ha : x ∉ a) : listSetEq a b = false := by
  rw [Bool.eq_false_iff]
  intro h
  rw [listSetEq_iff] at h
  have hx : x ∈ a.toFinset := by
    rw [h]
    exact List.mem_toFinset.2 hb
  exact ha (List.mem_toFinset.1 hx)

theorem after_auth_noop (env : Env) (user : DUser) (pw : Option String) (s : SyncState)
    (h₁ : listSetEq (dbLogins s user true) (_confirmed_logins env user) = true)
    (h₂ : listSetEq (dbLogins s user false) (_unconfirmed_logins env user) = true) :
    _after_authenticate env user pw s = s := by
  simp only [_after_authenticate]
  rw [if_pos h₁, if_pos h₂]

theorem after_auth_recompute (env : Env) (user : DUser) (pw : Option String) (s : SyncState)
    (h : listSetEq (dbLogins s user true) (_confirmed_logins env user) = false
      ∨ listSetEq (dbLogins s user false) (_unconfirmed_logins env user) = false) :
    _after_authenticate env user pw s
      = _persist_partial_digests user (_prepare_partial_digests env user pw s) := by
  simp only [_after_authenticate]
  rcases h with h | h
  · rw [if_neg (by rw [h]; exact Bool.false_ne_true)]
  · by_cases h₁ : listSetEq (dbLogins s user true) (_confirmed_logins env user) = true
    · rw [if_pos h₁, if_neg (by rw [h]; exact Bool.false_ne_true)]
    · rw [if_neg h₁]

theorem after_auth_dbLogins (env : Env) (user : DUser) (P : String) (s : SyncState) :
    (dbLogins (_after_authenticate env user (some P) s) user true).toFinset
      = (_confirmed_logins env user).toFinset
    ∧ (dbLogins (_after_authenticate env user (some P) s) user false).toFinset
      = (_unconfirmed_logins env user).toFinset := by
  by_cases h₁ : listSetEq (dbLogins s user true) (_confirmed_logins env user) = true
  · by_cases h₂ : listSetEq (dbLogins s user false) (_unconfirmed_logins env user) = true
    · rw [after_auth_noop env user (some P) s h₁ h₂]
      exact ⟨(listSetEq_iff _ _).1 h₁, (listSetEq_iff _ _).1 h₂⟩
    · rw [after_auth_recompute env user (some P) s (Or.inr (Bool.eq_false_iff.2 h₂)),
        (dbLogins_flush env user P s).1, (dbLogins_flush env user P s).2]
      exact ⟨rfl, rfl⟩
  · rw [after_auth_recompute env user (some P) s (Or.inl (Bool.eq_false_iff.2 h₁)),
      (dbLogins_flush env user P s).1, (dbLogins_flush env user P s).2]
    exact ⟨rfl, rfl⟩

theorem list_toFinset_map {α β : Type} [DecidableEq α] [DecidableEq β] (f : α → β)
    (l : List α) : (l.map f).toFinset = l.toFinset.image f := by
  induction l with
  | nil => rfl
  | cons a rest ih => simp [ih]

theorem nodup_get_logins (method : Option (DUser → List String)) (user : DUser) :
    (_get_logins method user).Nodup := by
  cases method with
  | none => exact List.nodup_nil
  | some m => exact List.nodup_dedup (m user)

theorem stagedFor_mem_confirmed (env : Env) (user : DUser) (P l : String)
    (hl : l ∈ _confirmed_logins env user) :
    (l, env.calculate_partial_digest l env.realm P, true) ∈ stagedFor env user P :=
  List.mem_append_left _ (List.mem_map.2 ⟨l, hl, rfl⟩)

theorem stagedFor_mem_unconfirmed (env : Env) (user : DUser) (P l : String)
    (hl : l ∈ _unconfirmed_logins env user) :
    (l, env.calculate_partial_digest l env.realm P, false) ∈ stagedFor env user P :=
  List.mem_append_right _ (List.mem_map.2 ⟨l, hl, rfl⟩)

/-- C1: after `_prepare_partial_digests(user, P)` followed by
`_persist_partial_digests(user)`, the `PartialDigest` rows of the user, viewed
as the set of `(login, confirmed)` pairs, equal the login factory's confirmed
set paired with `true` union its unconfirmed set paired with `false`. -/
theorem C1_stage_flush_rows (env : Env) (user : DUser) (P : String) (s : SyncState) :
    ((rowsFor (_persist_partial_digests user
        (_prepare_partial_digests env user (some P) s)) user).map
      (fun r => (r.login, r.confirmed))).toFinset
    = (_confirmed_logins env user).toFinset.image (fun l => (l, true))
      ∪ (_unconfirmed_logins env user).toFinset.image (fun l => (l, false)) := by
  rw [rowsFor_flush, mkRows_map_pair]
  simp [stagedFor, list_toFinset_map, List.map_map, Function.comp_def]

/-- C2: after a successful authentication, `_after_authenticate(user, P)`
leaves the stored `PartialDigest` rows of the user matching the login
factory's current output: the confirmed-flagged stored logins equal the
factory's confirmed set and the unconfirmed-flagged ones its unconfirmed
set. -/
theorem C2_reconcile_matches_enumerator (env : Env) (user : DUser) (P : String)
    (s : SyncState) :
    (dbLogins (_after_authenticate env user (some P) s) user true).toFinset
      = (_confirmed_logins env user).toFinset
    ∧ (dbLogins (_after_authenticate env user (some P) s) user false).toFinset
      = (_unconfirmed_logins env user).toFinset :=
  after_auth_dbLogins env user P s

/-- C3 counterexample: when "alice" moves from the unconfirmed to the
confirmed set between two authentications, the second `_after_authenticate`
does not flip the existing row in place: it deletes the user's rows and
recreates them, so the pre-existing row (pk 0) is gone and the confirmed row
for "alice" is a fresh row (pk 1) — same login and same digest value, but a
new row. -/
theorem C3_cex_not_in_place :
    rowsFor exS3a exUser3 = [⟨0, 1, "alice", "alice|r|pw", false⟩]
    ∧ rowsFor exS3b exUser3 = [⟨1, 1, "alice", "alice|r|pw", true⟩]
    ∧ ∀ r ∈ rowsFor exS3b exUser3, r.id ≠ 0 := by decide

/-- C3 amended: when login `L` moves from the unconfirmed to the confirmed set
between two authentications, the second `_after_authenticate` does not flip a
flag in place — it recomputes and replaces the user's rows wholesale (every
resulting row has a pk at least the auto-increment counter left by the first
authentication, so the pre-existing row is deleted, not updated).  The
observable columns behave as the claim says: the store ends with a confirmed
row for `L` whose `partial_digest` is the same value `H L realm P` that the
unconfirmed row held after the first authentication. -/
theorem C3_amended_move_replaces_rows (realm : String)
    (H : String → String → String → String) (user : DUser) (P L : String)
    (C U : List String) (s : SyncState)
    (hC : L ∉ C) (hrows : rowsFor s user = []) :
    (∃ r ∈ rowsFor (_after_authenticate (moveEnv realm H C (L :: U)) user (some P) s) user,
        r.login = L ∧ r.confirmed = false ∧ r.partial_digest = H L realm P)
    ∧ (∃ r ∈ rowsFor (_after_authenticate (moveEnv realm H (L :: C) U) user (some P)
          (_after_authenticate (moveEnv realm H C (L :: U)) user (some P) s)) user,
        r.login = L ∧ r.confirmed = true ∧ r.partial_digest = H L realm P)
    ∧ ∀ r ∈ rowsFor (_after_authenticate (moveEnv realm H (L :: C) U) user (some P)
          (_after_authenticate (moveEnv realm H C (L :: U)) user (some P) s)) user,
        (_after_authenticate (moveEnv realm H C (L :: U)) user (some P) s).nextId ≤ r.id := by
  have hmem1 : L ∈ _unconfirmed_logins (moveEnv realm H C (L :: U)) user := by
    show L ∈ (L :: U).dedup
    exact List.mem_dedup.2 (List.mem_cons_self L U)
  have hdbfalse : dbLogins s user false = [] := by
    rw [dbLogins_eq_rows_filter, hrows]
    rfl
  have hfail1 : listSetEq (dbLogins s user false)
      (_unconfirmed_logins (moveEnv realm H C (L :: U)) user) = false := by
    rw [hdbfalse]
    exact listSetEq_false_of_mem_right _ _ L hmem1 (List.not_mem_nil L)
  have hs1 : _after_authenticate (moveEnv realm H C (L :: U)) user (some P) s
      = _persist_partial_digests user
          (_prepare_partial_digests (moveEnv realm H C (L :: U)) user (some P) s) :=
    after_auth_recompute _ _ _ _ (Or.inr hfail1)
  rw [hs1]
  have hdb1true : dbLogins (_persist_partial_digests user
      (_prepare_partial_digests (moveEnv realm H C (L :: U)) user (some P) s)) user true
      = _confirmed_logins (moveEnv realm H C (L :: U)) user :=
    (dbLogins_flush (moveEnv realm H C (L :: U)) user P s).1
  have hmem2 : L ∈ _confirmed_logins (moveEnv realm H (L :: C) U) user := by
    show L ∈ (L :: C).dedup
    exact List.mem_dedup.2 (List.mem_cons_self L C)
  have hnot1 : L ∉ _confirmed_logins (moveEnv realm H C (L :: U)) user := by
    show L ∉ C.dedup
    intro h
    exact hC (List.mem_dedup.1 h)
  have hfail2 : listSetEq (dbLogins (_persist_partial_digests user
      (_prepare_partial_digests (moveEnv realm H C (L :: U)) user (some P) s)) user true)
      (_confirmed_logins (moveEnv realm H (L :: C) U) user) = false := by
    rw [hdb1true]
    exact listSetEq_false_of_mem_right _ _ L hmem2 hnot1
  have hs2 : _after_authenticate (moveEnv realm H (L :: C) U) user (some P)
        (_persist_partial_digests user
          (_prepare_partial_digests (moveEnv realm H C (L :: U)) user (some P) s))
      = _persist_partial_digests user
          (_prepare_partial_digests (moveEnv realm H (L :: C) U) user (some P)
            (_persist_partial_digests user
              (_prepare_partial_digests (moveEnv realm H C (L :: U)) user (some P) s))) :=
    after_auth_recompute _ _ _ _ (Or.inl hfail2)
  rw [hs2]
  rw [rowsFor_flush, rowsFor_flush]
  refine ⟨?_, ?_, ?_⟩
  · obtain ⟨r, hr, h₁, h₂, h₃⟩ := mkRows_mem_of_mem user.id _ _ s.nextId
      (stagedFor_mem_unconfirmed (moveEnv realm H C (L :: U)) user P L hmem1)
    exact ⟨r, hr, h₁, h₃, h₂⟩
  · obtain ⟨r, hr, h₁, h₂, h₃⟩ := mkRows_mem_of_mem user.id _ _ _
      (stagedFor_mem_confirmed (moveEnv realm H (L :: C) U) user P L hmem2)
    exact ⟨r, hr, h₁, h₃, h₂⟩
  · intro r hr
    exact mkRows_id_ge user.id _ _ r hr

/-- Witness for the amended C3: "alice" moves from unconfirmed to confirmed
between two authentications from an empty table. -/
theorem C3_amended_move_replaces_rows_witness :
    (∃ r ∈ rowsFor exS3a exUser3,
        r.login = "alice" ∧ r.confirmed = false
          ∧ r.partial_digest = exHash "alice" "r" "pw")
    ∧ (∃ r ∈ rowsFor exS3b exUser3,
        r.login = "alice" ∧ r.confirmed = true
          ∧ r.partial_digest = exHash "alice" "r" "pw")
    ∧ ∀ r ∈ rowsFor exS3b exUser3, exS3a.nextId ≤ r.id :=
  C3_amended_move_replaces_rows "r" exHash exUser3 "pw" "alice" [] [] ⟨[], 0, []⟩
    (by decide) rfl

/-- C4 counterexample: with a login factory reporting login "a" both confirmed
and unconfirmed, a single ComputeAndStage+Flush creates two `PartialDigest`
rows for the same (user, login) pair — the model declares no uniqueness
constraint on (user, login) and the staging loop emits one tuple per set. -/
theorem C4_cex_duplicate_rows :
    ((rowsFor (_persist_partial_digests exUser4
        (_prepare_partial_digests overlapEnv exUser4 (some "pw") ⟨[], 0, []⟩)) exUser4).filter
      (fun r => r.login == "a")).length = 2 := by decide

/-- C4 amended: the uniqueness of rows per (user, login) holds only when the
factory's confirmed and unconfirmed sets are disjoint (nothing enforces it
otherwise): under that proviso, after ComputeAndStage+Flush the user's row
logins are pairwise distinct, and `_after_authenticate` keeps them pairwise
distinct whenever they were so before. -/
theorem C4_amended_unique_rows (env : Env) (user : DUser) (P : String) (s : SyncState)
    (hdisj : ∀ l, l ∈ _confirmed_logins env user → l ∉ _unconfirmed_logins env user)
    (hpre : ((rowsFor s user).map (fun r => r.login)).Nodup) :
    ((rowsFor (_persist_partial_digests user
        (_prepare_partial_digests env user (some P) s)) user).map
      (fun r => r.login)).Nodup
    ∧ ((rowsFor (_after_authenticate env user (some P) s) user).map
        (fun r => r.login)).Nodup := by
  have hstagemap : (stagedFor env user P).map (fun t => t.1)
      = _confirmed_logins env user ++ _unconfirmed_logins env user := by
    simp [stagedFor, List.map_map, Function.comp_def]
  have hflush : ((rowsFor (_persist_partial_digests user
      (_prepare_partial_digests env user (some P) s)) user).map
      (fun r => r.login)).Nodup := by
    rw [rowsFor_flush, mkRows_map_login, hstagemap]
    exact List.Nodup.append (nodup_get_logins _ user) (nodup_get_logins _ user) hdisj
  refine ⟨hflush, ?_⟩
  by_cases h₁ : listSetEq (dbLogins s user true) (_confirmed_logins env user) = true
  · by_cases h₂ : listSetEq (dbLogins s user false) (_unconfirmed_logins env user) = true
    · rw [after_auth_noop env user (some P) s h₁ h₂]
      exact hpre
    · rw [after_auth_recompute env user (some P) s (Or.inr (Bool.eq_false_iff.2 h₂))]
      exact hflush
  · rw [after_auth_recompute env user (some P) s (Or.inl (Bool.eq_false_iff.2 h₁))]
    exact hflush

/-- Witness for the amended C4 at a factory with disjoint sets and an empty
table. -/
theorem C4_amended_unique_rows_witness :
    ((rowsFor (_persist_partial_digests exUser4
        (_prepare_partial_digests disjointEnv exUser4 (some "pw") ⟨[], 0, []⟩)) exUser4).map
      (fun r => r.login)).Nodup
    ∧ ((rowsFor (_after_authenticate disjointEnv exUser4 (some "pw") ⟨[], 0, []⟩) exUser4).map
        (fun r => r.login)).Nodup :=
  C4_amended_unique_rows disjointEnv exUser4 "pw" ⟨[], 0, []⟩ (by decide) (by decide)

/-- C5 counterexample: the delete-then-insert sequence of
`_store_partial_digests` runs under no transaction, so if the very first
insert raises (zero inserts complete) the user's pre-existing row is already
deleted: the rows after the failure are empty, not the pre-Flush rows. -/
theorem C5_cex_not_atomic :
    rowsFor (_store_partial_digests_steps exUser5 exState5 0) exUser5 = []
    ∧ rowsFor exState5 exUser5 = [exRow5] := by decide

/-- C5 amended: the replace is not atomic — when `_store_partial_digests` is
interrupted after the delete and the first `k` inserts, the user's rows are
exactly the rows created from the first `k` staged tuples (the pre-Flush rows
are gone and later tuples are missing). -/
theorem C5_amended_failed_flush_rows (user : DUser) (s : SyncState) (k : Nat)
    (pds : Staged) (h : dictFind user.password s.postponed = some pds) :
    rowsFor (_store_partial_digests_steps user s k) user
      = mkRows user.id s.nextId (pds.take k) := by
  simp [rowsFor, _store_partial_digests_steps, h, List.filter_append,
    filter_user_of_del, filter_user_mkRows]

/-- Witness for the amended C5: failure after one of the staged inserts. -/
theorem C5_amended_failed_flush_rows_witness :
    rowsFor (_store_partial_digests_steps exUser5 exState5 1) exUser5
      = mkRows exUser5.id exState5.nextId ([("a", "newdigest", true)].take 1) :=
  C5_amended_failed_flush_rows exUser5 exState5 1 [("a", "newdigest", true)] rfl

/-- C6 counterexample: the staging dict is keyed by the bare password-hash
string, so two distinct users whose `password` fields hold equal strings
collide: flushing user A consumes the entry staged for user B and persists
B's tuples (login "bob") as rows of user A. -/
theorem C6_cex_cross_user_flush :
    (rowsFor (_persist_partial_digests exUserA
        (_prepare_partial_digests crossEnv exUserB (some "pwB") ⟨[], 0, []⟩)) exUserA).map
      (fun r => r.login) = ["bob"]
    ∧ exUserA ≠ exUserB := by decide

/-- C6 amended: collisions are governed by equality of the password-hash
strings, not by identity of the password-change event: when user A's stored
hash differs from user B's staging key and A has no pending entry of its own,
a flush of A after B's staging changes nothing — B's staged entry and the
whole state survive untouched. -/
theorem C6_amended_no_cross_flush (env : Env) (userA userB : DUser) (P : String)
    (s : SyncState) (hne : userA.password ≠ userB.password)
    (hA : dictFind userA.password s.postponed = none) :
    _persist_partial_digests userA (_prepare_partial_digests env userB (some P) s)
      = _prepare_partial_digests env userB (some P) s := by
  have h : dictFind userA.password
      (dictInsert userB.password (stagedFor env userB P) s.postponed) = none := by
    rw [dictFind_insert_ne userB.password userA.password _ _ hne, hA]
  simp [_prepare_partial_digests, _persist_partial_digests, h]

/-- Witness for the amended C6 at two users with distinct password hashes. -/
theorem C6_amended_no_cross_flush_witness :
    _persist_partial_digests exUserC
        (_prepare_partial_digests crossEnv exUserD (some "pwB") ⟨[], 0, []⟩)
      = _prepare_partial_digests crossEnv exUserD (some "pwB") ⟨[], 0, []⟩ :=
  C6_amended_no_cross_flush crossEnv exUserC exUserD "pwB" ⟨[], 0, []⟩ (by decide) rfl

/-- C7: `_after_authenticate` is idempotent — a second call with the same
password and unchanged factory output returns the state of the first call
unchanged (the whole state, hence in particular the `PartialDigest` rows). -/
theorem C7_reconcile_idempotent (env : Env) (user : DUser) (P : String) (s : SyncState) :
    _after_authenticate env user (some P) (_after_authenticate env user (some P) s)
      = _after_authenticate env user (some P) s := by
  have h := after_auth_dbLogins env user P s
  exact after_auth_noop env user (some P) _
    ((listSetEq_iff _ _).2 h.1) ((listSetEq_iff _ _).2 h.2)

/-- C8: `_persist_partial_digests` is a no-op when the dict holds no entry for
the user's current password hash; a staged entry is consumed exactly once — a
present entry is deleted by the flush, and an immediately repeated flush
changes nothing (neither dict nor rows: the whole state is unchanged). -/
theorem C8_flush_noop_and_consume_once (user : DUser) (s : SyncState) :
    (dictFind user.password s.postponed = none → _persist_partial_digests user s = s)
    ∧ (∀ v : Staged, dictFind user.password s.postponed = some v
        → dictFind user.password (_persist_partial_digests user s).postponed = none)
    ∧ _persist_partial_digests user (_persist_partial_digests user s)
        = _persist_partial_digests user s := by
  have noop : ∀ t : SyncState, dictFind user.password t.postponed = none
      → _persist_partial_digests user t = t := by
    intro t h
    simp [_persist_partial_digests, h]
  have consumed : ∀ v : Staged, dictFind user.password s.postponed = some v
      → dictFind user.password (_persist_partial_digests user s).postponed = none := by
    intro v h
    simp [_persist_partial_digests, h, _store_partial_digests, dictFind_erase_self]
  refine ⟨noop s, consumed, ?_⟩
  match hf : dictFind user.password s.postponed with
  | none => rw [noop s hf, noop s hf]
  | some v => exact noop _ (consumed v hf)

/-- Witness for C8 at a state whose dict is empty. -/
theorem C8_flush_noop_witness :
    (dictFind exUser8.password exState8.postponed = none
      → _persist_partial_digests exUser8 exState8 = exState8)
    ∧ (∀ v : Staged, dictFind exUser8.password exState8.postponed = some v
        → dictFind exUser8.password (_persist_partial_digests exUser8 exState8).postponed
          = none)
    ∧ _persist_partial_digests exUser8 (_persist_partial_digests exUser8 exState8)
        = _persist_partial_digests exUser8 exState8 :=
  C8_flush_noop_and_consume_once exUser8 exState8

/-- C9: `_prepare_partial_digests(user, None)` is a complete no-op: the state —
`PartialDigest` rows and the `_postponed_partial_digests` dict — is returned
unchanged. -/
theorem C9_prepare_none_noop (env : Env) (user : DUser) (s : SyncState) :
    _prepare_partial_digests env user none s = s := rfl

/-- C10: a login factory missing `confirmed_logins_for_user` or
`unconfirmed_logins_for_user` (`getattr` returns `None`) makes the
corresponding enumeration the empty set instead of raising, so the
synchronization operations stay total. -/
theorem C10_missing_factory_method_empty (env : Env) (user : DUser) :
    (env.confirmed_logins_for_user = none → _confirmed_logins env user = [])
    ∧ (env.unconfirmed_logins_for_user = none → _unconfirmed_logins env user = []) := by
  constructor
  · intro h
    simp [_confirmed_logins, _get_logins, h]
  · intro h
    simp [_unconfirmed_logins, _get_logins, h]

/-- Witness for C10 at a factory with both methods absent. -/
theorem C10_missing_factory_method_empty_witness :
    (exEnvNoM.confirmed_logins_for_user = none → _confirmed_logins exEnvNoM exUserNoM = [])
    ∧ (exEnvNoM.unconfirmed_logins_for_user = none
        → _unconfirmed_logins exEnvNoM exUserNoM = []) :=
  C10_missing_factory_method_empty exEnvNoM exUserNoM

end DjangoDigest
